import Mathlib

/-!
Shallow embedding of `src/scripts/update-default-weights.py`, the build-time
tool that converts a trained `weights.json` into a bundled Lua default
weights file.  Python values are modelled as follows:

* a scalar (Python float) is modelled abstractly as `PyFloat`, carrying the
  string produced by Python's `repr`; the formatting layer of the script
  only ever consumes the scalar through `repr`, so this captures every
  string-level behaviour of the formatter;
* Python lists are Lean `List`s, Python dicts are association lists
  (`Dict α`), with membership and subscripting as in CPython (a lookup of a
  missing key raises `KeyError`, an out-of-range index raises `IndexError`);
* fallible operations return `Except PyErr`; an error that `main` does not
  catch terminates the process with a nonzero status before the output file
  is written.
-/

/-- Errors raised by the dynamic operations the script uses. -/
inductive PyErr where
  | valueError (msg : String)
  | keyError
  | indexError
deriving DecidableEq, Repr

/-- Model of a Python float: the script only observes a scalar through
`repr(value)`, so a scalar is represented by that string. -/
structure PyFloat where
  repr : String
deriving DecidableEq, Repr

/-- A row of a weight matrix: a 1-D list of scalars. -/
abbrev Row := List PyFloat

/-- A 2-D weight matrix: a list of rows. -/
abbrev WMatrix := List Row

/-- A network field: a list of per-layer matrices. -/
abbrev WField := List WMatrix

/-- A Python dict, modelled as an association list in insertion order. -/
abbrev Dict (α : Type) := List (String × α)

/-- Lookup of a key in a dict (`k in d`, `d[k]`): first matching binding. -/
def dictFind {α : Type} : Dict α → String → Option α
  | [], _ => none
  | (k1, v) :: rest, k => if k1 = k then some v else dictFind rest k

/-- Python `d.get(k, dflt)`. -/
def dictGetD {α : Type} (d : Dict α) (k : String) (dflt : α) : α :=
  match dictFind d k with
  | some v => v
  | none => dflt

/-- Python subscript `d[k]`, raising `KeyError` when the key is absent. -/
def pySubscript {α : Type} (d : Dict α) (k : String) : Except PyErr α :=
  match dictFind d k with
  | some v => Except.ok v
  | none => Except.error PyErr.keyError

/-- Python subscript `xs[i]` for a nonnegative index, raising `IndexError`
when out of range. -/
def pyListGet {α : Type} (xs : List α) (i : Nat) : Except PyErr α :=
  match xs.get? i with
  | some x => Except.ok x
  | none => Except.error PyErr.indexError

/-- Python string repetition `s * n`. -/
def pyStrMul (s : String) : Nat → String
  | 0 => ""
  | n + 1 => s ++ pyStrMul s n

/-- Python `sep.join(parts)`. -/
def pyJoin (sep : String) : List String → String
  | [] => ""
  | [part] => part
  | part :: rest => part ++ sep ++ pyJoin sep rest

/-- Python `"\n".join(lines)`, the final step of every formatter. -/
def joinLines (lines : List String) : String :=
  pyJoin "\n" lines

/-- Key ordering matching the existing `nn_default_weights.lua` format
(`NETWORK_KEY_ORDER` in the script). -/
def NETWORK_KEY_ORDER : List String :=
  ["running_vars", "running_means", "weights", "betas", "gammas", "biases"]

/-- Loop body of `infer_architecture`: `for layer in weights:
arch.append(len(layer[0]))`, with `layer[0]` an unguarded subscript. -/
def infer_arch_loop : List WMatrix → List Nat → Except PyErr (List Nat)
  | [], arch => Except.ok arch
  | layer :: rest, arch =>
    match pyListGet layer 0 with
    | Except.error e => Except.error e
    | Except.ok row0 => infer_arch_loop rest (arch ++ [row0.length])

/-- The script's `infer_architecture(weights)`: raises
`ValueError("No weight matrices found")` on an empty list, otherwise starts
from `[len(weights[0])]` and appends `len(layer[0])` for each layer. -/
def infer_architecture (weights : List WMatrix) : Except PyErr (List Nat) :=
  if weights.isEmpty then
    Except.error (PyErr.valueError "No weight matrices found")
  else
    match pyListGet weights 0 with
    | Except.error e => Except.error e
    | Except.ok w0 => infer_arch_loop weights [w0.length]

/-- The script's `format_number(value)`: `repr(value)`. -/
def format_number (value : PyFloat) : String :=
  value.repr

/-- The script's `format_array(values, indent_level)`: a single-element
array becomes `\x7b v \x7d` on one line, otherwise one value per line, each
followed by a comma, wrapped in braces. -/
def format_array (values : List PyFloat) (indent_level : Nat) : String :=
  let indent := pyStrMul "  " indent_level
  match values with
  | [v] => "\x7b " ++ format_number v ++ " \x7d"
  | _ =>
    let inner_indent := pyStrMul "  " (indent_level + 1)
    joinLines (["\x7b"] ++
      values.map (fun val => inner_indent ++ format_number val ++ ",") ++
      [indent ++ "\x7d"])

/-- The script's `format_matrix(matrix, indent_level)`. -/
def format_matrix (matrix : WMatrix) (indent_level : Nat) : String :=
  let indent := pyStrMul "  " indent_level
  let inner_indent := pyStrMul "  " (indent_level + 1)
  joinLines (["\x7b"] ++
    matrix.map (fun row => inner_indent ++ format_array row (indent_level + 1) ++ ",") ++
    [indent ++ "\x7d"])

/-- The script's `format_network_field(field_data, indent_level)`. -/
def format_network_field (field_data : WField) (indent_level : Nat) : String :=
  let indent := pyStrMul "  " indent_level
  let inner_indent := pyStrMul "  " (indent_level + 1)
  joinLines (["\x7b"] ++
    field_data.map (fun layer_matrix =>
      inner_indent ++ format_matrix layer_matrix (indent_level + 1) ++ ",") ++
    [indent ++ "\x7d"])

/-- The `version_labels` dict literal inside `generate_lua`. -/
def version_labels : Dict String :=
  [("2.0-hinge", "v2.0 pairwise hinge loss")]

/-- The `lines` list built by `generate_lua` before the final join: header
comment block, the table opener with the version string, one labelled line
per key of `NETWORK_KEY_ORDER` (subscripting the network dict, so a missing
key raises `KeyError`), and the closing lines. -/
def generate_lua_lines (version : String) (network : Dict WField)
    (architecture : List Nat) : Except PyErr (List String) :=
  let arch_str := pyJoin " -> " (architecture.map (fun s => toString s))
  match NETWORK_KEY_ORDER.mapM (fun key =>
      (pySubscript network key).map (fun fd =>
        "    [\"" ++ key ++ "\"] = " ++ format_network_field fd 2 ++ ",")) with
  | Except.error e => Except.error e
  | Except.ok fieldLines =>
    Except.ok
      (["--- Default neural network weights for neural-open",
        "--- Auto-generated from trained weights - DO NOT EDIT MANUALLY",
        "---",
        "--- These weights are used as defaults when no user weights exist.",
        "--- They represent a pre-trained network that provides good initial file ranking.",
        "---",
        "--- Network architecture: " ++ arch_str,
        "--- Training format: " ++ dictGetD version_labels version version,
        "",
        "return \x7b",
        "  version = \"" ++ version ++ "\",",
        "  network = \x7b"] ++
       fieldLines ++
       ["  \x7d,", "\x7d", ""])

/-- The script's `generate_lua(version, network, architecture)`:
`"\n".join(lines)`. -/
def generate_lua (version : String) (network : Dict WField)
    (architecture : List Nat) : Except PyErr String :=
  match generate_lua_lines version network architecture with
  | Except.error e => Except.error e
  | Except.ok lines => Except.ok (joinLines lines)

/-- Parsed shape of the weights.json document as far as `main` inspects it:
each `Option` field records whether the corresponding key is present in the
level's JSON object.  JSON type mismatches (a non-object where `main`
subscripts) are outside the model; the claims only concern well-typed
documents with possibly missing keys. -/
structure NNDoc where
  version : Option String
  network : Option (Dict WField)

/-- Value of `data["nn"]` when present. -/
structure MidDoc where
  nn : Option NNDoc

/-- The top-level parsed JSON document. -/
structure TopDoc where
  nn : Option MidDoc

/-- Outcome of a run of `main` from the parsed document onward.
`fail msg` is a validation failure: `msg` printed to stderr and
`sys.exit(1)` before anything is written; `uncaught e` is an uncaught
exception (nonzero exit, traceback, nothing written); `written content` is
the success path, the only one on which the output file is written. -/
inductive MainResult where
  | fail (stderrMsg : String)
  | uncaught (e : PyErr)
  | written (content : String)
deriving DecidableEq, Repr

/-- First key of `NETWORK_KEY_ORDER` missing from the network dict — the
key at which the script's validation loop calls `sys.exit(1)`. -/
def firstMissing (network : Dict WField) : Option String :=
  NETWORK_KEY_ORDER.find? (fun k => (dictFind network k).isNone)

/-- The script's `main()` from the parsed JSON document onward: the chain of
key-presence checks, the validation loop over `NETWORK_KEY_ORDER`,
architecture inference, Lua generation, and only then the output write. -/
def main_run (data : TopDoc) : MainResult :=
  match data.nn with
  | none => MainResult.fail "Error: Missing 'nn' key in weights.json"
  | some mid =>
    match mid.nn with
    | none => MainResult.fail "Error: Missing 'nn.nn' key in weights.json"
    | some nn_data =>
      match nn_data.version with
      | none => MainResult.fail "Error: Missing 'nn.nn.version' in weights.json"
      | some version =>
        match nn_data.network with
        | none => MainResult.fail "Error: Missing 'nn.nn.network' in weights.json"
        | some network =>
          match firstMissing network with
          | some key =>
            MainResult.fail ("Error: Missing network key '" ++ key ++ "' in weights.json")
          | none =>
            match pySubscript network "weights" with
            | Except.error e => MainResult.uncaught e
            | Except.ok weights =>
              match infer_architecture weights with
              | Except.error e => MainResult.uncaught e
              | Except.ok architecture =>
                match generate_lua version network architecture with
                | Except.error e => MainResult.uncaught e
                | Except.ok lua_content => MainResult.written lua_content

/-- Splitting a character list at newline characters; `splitLines cs` is the
list of lines of `cs` (always nonempty). -/
def splitLines : List Char → List (List Char)
  | [] => [[]]
  | c :: rest =>
    if c = '\n' then [] :: splitLines rest
    else
      match splitLines rest with
      | [] => [[c]]
      | l :: ls => (c :: l) :: ls

/-- The lines of a string, as strings. -/
def lineList (s : String) : List String :=
  (splitLines s.data).map (fun cs => String.mk cs)

lemma splitLines_no_newline (cs : List Char) (h : '\n' ∉ cs) : splitLines cs = [cs] := by
  induction cs with
  | nil => rfl
  | cons c rest ih =>
    simp only [List.mem_cons, not_or] at h
    have hc : ¬ c = '\n' := fun hc => h.1 hc.symm
    simp only [splitLines, if_neg hc, ih h.2]

lemma splitLines_append (xs ys : List Char) (h : '\n' ∉ xs) :
    splitLines (xs ++ '\n' :: ys) = xs :: splitLines ys := by
  induction xs with
  | nil => simp [splitLines]
  | cons c rest ih =>
    simp only [List.mem_cons, not_or] at h
    have hc : ¬ c = '\n' := fun hc => h.1 hc.symm
    rw [List.cons_append]
    simp only [splitLines, if_neg hc]
    rw [ih h.2]

lemma joinLines_cons_cons (l l2 : String) (rest : List String) :
    joinLines (l :: l2 :: rest) = l ++ "\n" ++ joinLines (l2 :: rest) := rfl

lemma lineList_cons_line (l s : String) (h : '\n' ∉ l.data) :
    lineList (l ++ "\n" ++ s) = l :: lineList s := by
  unfold lineList
  have hdata : (l ++ "\n" ++ s).data = l.data ++ '\n' :: s.data := by
    rw [String.data_append, String.data_append]
    simp
  rw [hdata, splitLines_append _ _ h]
  rfl

lemma lineList_single (l : String) (h : '\n' ∉ l.data) : lineList l = [l] := by
  unfold lineList
  rw [splitLines_no_newline _ h]
  rfl

lemma lineList_joinLines (ss : List String) (hne : ss ≠ [])
    (hnl : ∀ s ∈ ss, '\n' ∉ s.data) : lineList (joinLines ss) = ss := by
  induction ss with
  | nil => exact absurd rfl hne
  | cons l rest ih =>
    cases rest with
    | nil =>
      show lineList (joinLines [l]) = [l]
      exact lineList_single l (hnl l (by simp))
    | cons l2 rest2 =>
      rw [joinLines_cons_cons, lineList_cons_line _ _ (hnl l (by simp))]
      rw [ih (by simp) (fun s hs => hnl s (List.mem_cons_of_mem _ hs))]

lemma pyStrMul_sp_no_newline (n : Nat) : '\n' ∉ (pyStrMul "  " n).data := by
  induction n with
  | zero => decide
  | succ n ih =>
    simp only [pyStrMul, String.data_append, List.mem_append]
    rintro (h | h)
    · exact absurd h (by decide)
    · exact ih h

lemma infer_arch_loop_ok (ws : List WMatrix) (acc : List Nat)
    (h : ∀ l ∈ ws, l ≠ []) :
    infer_arch_loop ws acc =
      Except.ok (acc ++ ws.map (fun l => (l.headD []).length)) := by
  induction ws generalizing acc with
  | nil => simp [infer_arch_loop]
  | cons layer rest ih =>
    cases layer with
    | nil => exact absurd rfl (h [] (by simp))
    | cons r rs =>
      simp only [infer_arch_loop, pyListGet, List.get?]
      rw [ih _ (fun l hl => h l (List.mem_cons_of_mem _ hl))]
      simp

lemma infer_arch_loop_err (ws : List WMatrix) (acc : List Nat)
    (h : ∃ l ∈ ws, l = []) :
    infer_arch_loop ws acc = Except.error PyErr.indexError := by
  induction ws generalizing acc with
  | nil =>
    obtain ⟨l, hl, _⟩ := h
    exact absurd hl (List.not_mem_nil l)
  | cons layer rest ih =>
    cases layer with
    | nil => simp [infer_arch_loop, pyListGet]
    | cons r rs =>
      obtain ⟨l, hl, hleq⟩ := h
      rcases List.mem_cons.mp hl with h1 | h2
      · exact absurd (h1 ▸ hleq) (List.cons_ne_nil r rs)
      · simp only [infer_arch_loop, pyListGet, List.get?]
        exact ih _ ⟨l, h2, hleq⟩

lemma dictFind_perm {α : Type} {d1 d2 : Dict α} (hperm : List.Perm d1 d2) :
    (d1.map Prod.fst).Nodup → ∀ k, dictFind d1 k = dictFind d2 k := by
  induction hperm with
  | nil => intro _ k; rfl
  | cons x h ih =>
    intro hnd k
    obtain ⟨kx, vx⟩ := x
    simp only [List.map_cons, List.nodup_cons] at hnd
    simp only [dictFind]
    by_cases hk : kx = k
    · simp [hk]
    · simp only [if_neg hk]
      exact ih hnd.2 k
  | swap x y l =>
    intro hnd k
    obtain ⟨kx, vx⟩ := x
    obtain ⟨ky, vy⟩ := y
    simp only [List.map_cons, List.nodup_cons, List.mem_cons, not_or] at hnd
    have hxy : ¬ ky = kx := hnd.1.1
    simp only [dictFind]
    by_cases h1 : ky = k <;> by_cases h2 : kx = k
    · exact absurd (h1.trans h2.symm) hxy
    · simp [h1, h2]
    · simp [h1, h2]
    · simp [h1, h2]
  | trans h1 h2 ih1 ih2 =>
    intro hnd k
    rw [ih1 hnd k, ih2 (((h1.map Prod.fst).nodup_iff).mp hnd) k]

lemma find_first_true {p : String → Bool} (l : List String) (k : String)
    (hk : k ∈ l) (hpk : p k = true)
    (hothers : ∀ k1 ∈ l, k1 ≠ k → p k1 = false) :
    l.find? p = some k := by
  induction l with
  | nil => exact absurd hk (List.not_mem_nil k)
  | cons a t ih =>
    by_cases ha : a = k
    · subst ha
      rw [List.find?_cons_of_pos _ hpk]
    · have hpa : p a = false := hothers a (List.mem_cons_self a t) ha
      rw [List.find?_cons_of_neg _ (by simp [hpa])]
      have hkt : k ∈ t := by
        rcases List.mem_cons.mp hk with h1 | h2
        · exact absurd h1.symm ha
        · exact h2
      exact ih hkt (fun k1 h1 h2 => hothers k1 (List.mem_cons_of_mem _ h1) h2)

lemma no_newline_append (a b : String) (ha : '\n' ∉ a.data)
    (hb : '\n' ∉ b.data) : '\n' ∉ (a ++ b).data := by
  rw [String.data_append]
  simp only [List.mem_append]
  rintro (h | h)
  · exact ha h
  · exact hb h

lemma infer_architecture_cons (w : WMatrix) (ws : List WMatrix) :
    infer_architecture (w :: ws) = infer_arch_loop (w :: ws) [w.length] := by
  simp [infer_architecture, pyListGet]

/-- C1: on a non-empty list of weight matrices (each with at least one row,
so that its first row exists), `infer_architecture` returns the row count of
the first matrix followed by each matrix's first-row length, a list of
length one more than the number of matrices. -/
theorem infer_architecture_ok (weights : List WMatrix) (hne : weights ≠ [])
    (hrows : ∀ l ∈ weights, l ≠ []) :
    infer_architecture weights =
      Except.ok ((weights.headD []).length ::
        weights.map (fun l => (l.headD []).length)) ∧
    ((weights.headD []).length ::
        weights.map (fun l => (l.headD []).length)).length =
      weights.length + 1 := by
  constructor
  · cases weights with
    | nil => exact absurd rfl hne
    | cons w ws =>
      rw [infer_architecture_cons, infer_arch_loop_ok _ _ hrows]
      simp
  · simp

/-- Witness for C1: weight matrices with 3 rows / 5 columns and 1 row /
2 columns give architecture [3, 5, 2]. -/
theorem infer_architecture_ok_witness :
    (([List.replicate 3 (List.replicate 5 (PyFloat.mk "0.5")),
        [List.replicate 2 (PyFloat.mk "0.5")]] : List WMatrix) ≠ [] ∧
      ∀ l ∈ ([List.replicate 3 (List.replicate 5 (PyFloat.mk "0.5")),
        [List.replicate 2 (PyFloat.mk "0.5")]] : List WMatrix), l ≠ []) ∧
    infer_architecture
        [List.replicate 3 (List.replicate 5 (PyFloat.mk "0.5")),
          [List.replicate 2 (PyFloat.mk "0.5")]] =
      Except.ok [3, 5, 2] := by
  refine ⟨⟨by decide, by decide⟩, ?_⟩
  exact (infer_architecture_ok _ (by decide) (by decide)).1

/-- C9: `infer_architecture` subscripts each layer's first row without a
guard: when the (non-empty) weights list has only non-empty matrices the
indexing is safe and the function returns an architecture, and when some
matrix has zero rows the function fails with the unguarded `IndexError`
rather than the named `ValueError`. -/
theorem infer_architecture_unguarded_index (weights : List WMatrix)
    (hne : weights ≠ []) :
    ((∀ l ∈ weights, l ≠ []) →
      ∃ arch, infer_architecture weights = Except.ok arch) ∧
    ((∃ l ∈ weights, l = []) →
      infer_architecture weights = Except.error PyErr.indexError) := by
  constructor
  · intro h
    cases weights with
    | nil => exact absurd rfl hne
    | cons w ws =>
      simp only [infer_architecture_cons]
      exact ⟨_, infer_arch_loop_ok _ _ h⟩
  · intro h
    cases weights with
    | nil => exact absurd rfl hne
    | cons w ws =>
      rw [infer_architecture_cons]
      exact infer_arch_loop_err _ _ h

/-- Witness for C9: a weights list holding one proper matrix and one
zero-row matrix is non-empty, and the zero-row matrix triggers `IndexError`. -/
theorem infer_architecture_unguarded_index_witness :
    (([[[PyFloat.mk "1.0"]], []] : List WMatrix) ≠ []) ∧
    (((∀ l ∈ ([[[PyFloat.mk "1.0"]], []] : List WMatrix), l ≠ []) →
        ∃ arch, infer_architecture [[[PyFloat.mk "1.0"]], []] = Except.ok arch) ∧
      ((∃ l ∈ ([[[PyFloat.mk "1.0"]], []] : List WMatrix), l = []) →
        infer_architecture [[[PyFloat.mk "1.0"]], []] =
          Except.error PyErr.indexError)) :=
  ⟨by decide, infer_architecture_unguarded_index _ (by decide)⟩

/-- C10: `format_array` renders the empty array as a multi-line brace pair
containing no values — not the single-line form and not an error; the
output has exactly the two brace lines. -/
theorem format_array_empty (i : Nat) :
    format_array [] i = "\x7b" ++ "\n" ++ (pyStrMul "  " i ++ "\x7d") ∧
    lineList (format_array [] i) = ["\x7b", pyStrMul "  " i ++ "\x7d"] := by
  have hfa : format_array [] i = joinLines ["\x7b", pyStrMul "  " i ++ "\x7d"] := rfl
  constructor
  · rw [hfa]; rfl
  · rw [hfa]
    refine lineList_joinLines _ (by simp) ?_
    intro s hs
    rcases List.mem_cons.mp hs with h1 | h2
    · subst h1; decide
    · rcases List.mem_cons.mp h2 with h3 | h4
      · subst h3
        exact no_newline_append _ _ (pyStrMul_sp_no_newline i) (by decide)
      · exact absurd h4 (List.not_mem_nil s)

/-- C6: `generate_lua` is a pure function of its three inputs, so two runs
on identical input data produce byte-identical output text. -/
theorem generate_lua_deterministic (v1 v2 : String) (n1 n2 : Dict WField)
    (a1 a2 : List Nat) (hv : v1 = v2) (hn : n1 = n2) (ha : a1 = a2) :
    generate_lua v1 n1 a1 = generate_lua v2 n2 a2 := by
  subst hv; subst hn; subst ha; rfl

/-- Witness for C6 at a concrete input. -/
theorem generate_lua_deterministic_witness :
    generate_lua "2.0-hinge" [("weights", [[[PyFloat.mk "1.0"]]])] [1, 1] =
      generate_lua "2.0-hinge" [("weights", [[[PyFloat.mk "1.0"]]])] [1, 1] :=
  generate_lua_deterministic _ _ _ _ _ _ rfl rfl rfl

/-- C3: `format_array` renders a 1-element array as a single line
`\x7b v \x7d`, and an array of 2 or more scalars as a brace-wrapped block
whose lines are exactly the open brace, one value per line each followed by
a trailing comma and indented one fixed-width unit deeper, and the closing
brace at the enclosing indentation. -/
theorem format_array_spec (values : List PyFloat) (i : Nat)
    (hnl : ∀ v ∈ values, '\n' ∉ v.repr.data) :
    (∀ v, values = [v] →
      format_array values i = "\x7b " ++ format_number v ++ " \x7d" ∧
      lineList (format_array values i) = [format_array values i]) ∧
    (2 ≤ values.length →
      lineList (format_array values i) =
        ["\x7b"] ++
          values.map (fun v => pyStrMul "  " (i + 1) ++ format_number v ++ ",") ++
          [pyStrMul "  " i ++ "\x7d"]) := by
  constructor
  · rintro v rfl
    refine ⟨rfl, ?_⟩
    apply lineList_single
    exact no_newline_append _ _
      (no_newline_append _ _ (by decide) (hnl v (by simp))) (by decide)
  · intro hlen
    rcases values with _ | ⟨a, _ | ⟨b, rest⟩⟩
    · simp at hlen
    · simp at hlen
    · have hfa : format_array (a :: b :: rest) i =
          joinLines (["\x7b"] ++
            (a :: b :: rest).map
              (fun v => pyStrMul "  " (i + 1) ++ format_number v ++ ",") ++
            [pyStrMul "  " i ++ "\x7d"]) := rfl
      rw [hfa]
      refine lineList_joinLines _ (by simp) ?_
      intro s hs
      simp only [List.append_assoc, List.mem_append, List.mem_map,
        List.mem_cons, List.not_mem_nil, or_false] at hs
      rcases hs with h1 | ⟨v, hv, rfl⟩ | h3
      · subst h1; decide
      · exact no_newline_append _ _
          (no_newline_append _ _ (pyStrMul_sp_no_newline _)
            (hnl v (by simpa using hv)))
          (by decide)
      · subst h3
        exact no_newline_append _ _ (pyStrMul_sp_no_newline _) (by decide)

/-- Witness for C3: a 2-element array at indent level 1 produces four lines,
one value per line with trailing commas. -/
theorem format_array_spec_witness :
    (∀ v ∈ ([PyFloat.mk "1.5", PyFloat.mk "-0.25"] : List PyFloat),
      '\n' ∉ v.repr.data) ∧
    lineList (format_array [PyFloat.mk "1.5", PyFloat.mk "-0.25"] 1) =
      ["\x7b", "    1.5,", "    -0.25,", "  \x7d"] := by
  refine ⟨by decide, ?_⟩
  have h := (format_array_spec [PyFloat.mk "1.5", PyFloat.mk "-0.25"] 1
    (by decide)).2 (by decide)
  exact h

/-- C7: the header line of `generate_lua` labels the training format via
the known-versions dict with the raw version string as fallback, and the
version string is passed through unchanged into the output's version
field. -/
theorem generate_lua_version_header (v : String) (n : Dict WField)
    (a : List Nat) (ls : List String)
    (h : generate_lua_lines v n a = Except.ok ls) :
    ("--- Training format: " ++ dictGetD version_labels v v) ∈ ls ∧
    ("  version = \"" ++ v ++ "\",") ∈ ls ∧
    dictGetD version_labels v v =
      (if v = "2.0-hinge" then "v2.0 pairwise hinge loss" else v) := by
  have hlabel : dictGetD version_labels v v =
      (if v = "2.0-hinge" then "v2.0 pairwise hinge loss" else v) := by
    by_cases hv : v = "2.0-hinge"
    · subst hv; rfl
    · have hvv : ¬ ("2.0-hinge" = v) := fun he => hv he.symm
      simp [dictGetD, dictFind, version_labels, hvv, if_neg hv]
  refine ⟨?_, ?_, hlabel⟩ <;>
  · rcases hmap : NETWORK_KEY_ORDER.mapM (fun key =>
        (pySubscript n key).map (fun fd =>
          "    [\"" ++ key ++ "\"] = " ++ format_network_field fd 2 ++ ",")) with
      e | fls
    · rw [generate_lua_lines, hmap] at h
      exact absurd h (by simp)
    · rw [generate_lua_lines, hmap] at h
      have hls := (Except.ok.injEq _ _).mp h
      subst hls
      simp

/-- Witness for C7: on the recognised version "2.0-hinge" and a network
with all six keys, the header carries the mapped label and the version
line carries the raw string. -/
theorem generate_lua_version_header_witness :
    ("--- Training format: " ++ dictGetD version_labels "2.0-hinge" "2.0-hinge") ∈
      ((generate_lua_lines "2.0-hinge"
          [("running_vars", []), ("running_means", []), ("weights", []),
            ("betas", []), ("gammas", []), ("biases", [])]
          [3, 2]).toOption.getD []) ∧
    ("  version = \"" ++ "2.0-hinge" ++ "\",") ∈
      ((generate_lua_lines "2.0-hinge"
          [("running_vars", []), ("running_means", []), ("weights", []),
            ("betas", []), ("gammas", []), ("biases", [])]
          [3, 2]).toOption.getD []) ∧
    dictGetD version_labels "2.0-hinge" "2.0-hinge" =
      (if "2.0-hinge" = "2.0-hinge" then "v2.0 pairwise hinge loss"
        else "2.0-hinge") :=
  generate_lua_version_header "2.0-hinge"
    [("running_vars", []), ("running_means", []), ("weights", []),
      ("betas", []), ("gammas", []), ("biases", [])]
    [3, 2] _ (by rfl)

/-- Network value used by the C4 witness: five of the six
required keys, `biases` absent. -/
def fiveKeyNet : Dict WField :=
  [("running_vars", []), ("running_means", []), ("weights", []),
    ("betas", []), ("gammas", [])]

/-- Network value with all six required keys present and an empty weights
list, used by the C5 and C8 witnesses. -/
def sixKeyNet : Dict WField :=
  [("running_vars", []), ("running_means", []), ("weights", []),
    ("betas", []), ("gammas", []), ("biases", [])]

lemma mapM_fieldLines_ok (n : Dict WField) :
    ∀ (keys : List String), (∀ k ∈ keys, (dictFind n k).isSome = true) →
    keys.mapM (fun key => (pySubscript n key).map (fun fd =>
        "    [\"" ++ key ++ "\"] = " ++ format_network_field fd 2 ++ ",")) =
      Except.ok (keys.map (fun key =>
        "    [\"" ++ key ++ "\"] = " ++
          format_network_field (dictGetD n key []) 2 ++ ",")) := by
  intro keys
  induction keys with
  | nil => intro _; rfl
  | cons k ks ih =>
    intro hall
    rcases Option.isSome_iff_exists.mp (hall k (List.mem_cons_self k ks)) with ⟨fd, hfd⟩
    rw [List.mapM_cons, ih (fun x hx => hall x (List.mem_cons_of_mem _ hx))]
    simp [pySubscript, dictGetD, hfd, Except.map]
    rfl

/-- C8: the emitted output presents the six network fields in the fixed
canonical `NETWORK_KEY_ORDER`, each on a line labelled with its own key
name, independently of the order of the keys in the input dict.  First
conjunct: permuting the (unique) input keys leaves `generate_lua`
byte-identical.  Second conjunct: whenever all six keys are present, the
emitted lines are exactly the header followed by `NETWORK_KEY_ORDER.map`
of the labelled field lines — one line per canonical key, in canonical
order, each carrying its key name and that key's formatted field — and the
closing lines. -/
theorem generate_lua_order_independent (v : String) (a : List Nat) :
    (∀ n1 n2 : Dict WField, List.Perm n1 n2 → (n1.map Prod.fst).Nodup →
      generate_lua v n1 a = generate_lua v n2 a) ∧
    (∀ n : Dict WField, (∀ k ∈ NETWORK_KEY_ORDER, (dictFind n k).isSome = true) →
      generate_lua_lines v n a =
        Except.ok
          (["--- Default neural network weights for neural-open",
            "--- Auto-generated from trained weights - DO NOT EDIT MANUALLY",
            "---",
            "--- These weights are used as defaults when no user weights exist.",
            "--- They represent a pre-trained network that provides good initial file ranking.",
            "---",
            "--- Network architecture: " ++ pyJoin " -> " (a.map (fun s => toString s)),
            "--- Training format: " ++ dictGetD version_labels v v,
            "",
            "return \x7b",
            "  version = \"" ++ v ++ "\",",
            "  network = \x7b"] ++
          NETWORK_KEY_ORDER.map (fun key =>
            "    [\"" ++ key ++ "\"] = " ++
              format_network_field (dictGetD n key []) 2 ++ ",") ++
          ["  \x7d,", "\x7d", ""])) := by
  constructor
  · intro n1 n2 hperm hnd
    have hfind := dictFind_perm hperm hnd
    have hsub : ∀ k, pySubscript n1 k = pySubscript n2 k := fun k => by
      simp [pySubscript, hfind k]
    simp only [generate_lua, generate_lua_lines, hsub]
  · intro n hall
    simp only [generate_lua_lines, mapM_fieldLines_ok n NETWORK_KEY_ORDER hall]

/-- Witness for C8: swapping two network keys leaves the output unchanged,
and on a network with all six keys the emitted lines are the header plus
the six canonical labelled field lines plus the closing lines. -/
theorem generate_lua_order_independent_witness :
    generate_lua "1.0" [("weights", [[[PyFloat.mk "1.0"]]]), ("biases", [])] [1] =
      generate_lua "1.0" [("biases", []), ("weights", [[[PyFloat.mk "1.0"]]])] [1] ∧
    generate_lua_lines "2.0-hinge" sixKeyNet [3, 2] =
      Except.ok
        (["--- Default neural network weights for neural-open",
          "--- Auto-generated from trained weights - DO NOT EDIT MANUALLY",
          "---",
          "--- These weights are used as defaults when no user weights exist.",
          "--- They represent a pre-trained network that provides good initial file ranking.",
          "---",
          "--- Network architecture: " ++ pyJoin " -> " ([3, 2].map (fun s => toString s)),
          "--- Training format: " ++ dictGetD version_labels "2.0-hinge" "2.0-hinge",
          "",
          "return \x7b",
          "  version = \"" ++ "2.0-hinge" ++ "\",",
          "  network = \x7b"] ++
        NETWORK_KEY_ORDER.map (fun key =>
          "    [\"" ++ key ++ "\"] = " ++
            format_network_field (dictGetD sixKeyNet key []) 2 ++ ",") ++
        ["  \x7d,", "\x7d", ""]) :=
  ⟨(generate_lua_order_independent "1.0" [1]).1 _ _ (List.Perm.swap _ _ _) (by decide),
    (generate_lua_order_independent "2.0-hinge" [3, 2]).2 sixKeyNet (by decide)⟩

/-- C4: when exactly one of the six required network keys is absent, `main`
fails with the error message naming exactly that key and exits with status
1 before the output file is written (`MainResult.fail` is a `sys.exit(1)`
reached before the write). -/
theorem main_missing_network_key (version : String) (network : Dict WField)
    (k : String) (hk : k ∈ NETWORK_KEY_ORDER)
    (hmiss : dictFind network k = none)
    (hothers : ∀ k1 ∈ NETWORK_KEY_ORDER, k1 ≠ k →
      (dictFind network k1).isSome = true) :
    main_run ⟨some ⟨some ⟨some version, some network⟩⟩⟩ =
      MainResult.fail ("Error: Missing network key '" ++ k ++ "' in weights.json") := by
  have hfind : firstMissing network = some k := by
    apply find_first_true _ _ hk
    · simp [hmiss]
    · intro k1 h1 h2
      have hsome := hothers k1 h1 h2
      rcases Option.isSome_iff_exists.mp hsome with ⟨val, hval⟩
      simp [hval]
  simp [main_run, hfind]

/-- Witness for C4: with `biases` missing and the other five keys present,
the run fails naming exactly `biases`. -/
theorem main_missing_network_key_witness :
    ("biases" ∈ NETWORK_KEY_ORDER ∧ dictFind fiveKeyNet "biases" = none) ∧
    main_run ⟨some ⟨some ⟨some "2.0-hinge", some fiveKeyNet⟩⟩⟩ =
      MainResult.fail "Error: Missing network key 'biases' in weights.json" := by
  refine ⟨⟨by decide, by rfl⟩, ?_⟩
  exact main_missing_network_key "2.0-hinge" fiveKeyNet "biases"
    (by decide) (by rfl) (by decide)

/-- C5: when all six keys are present but the weights list is empty, `main`
reaches `infer_architecture`, which raises the architecture-inference
`ValueError`; the exception is uncaught, so the process exits before the
output file is written. -/
theorem main_empty_weights (version : String) (network : Dict WField)
    (hw : dictFind network "weights" = some [])
    (hall : ∀ k ∈ NETWORK_KEY_ORDER, (dictFind network k).isSome = true) :
    main_run ⟨some ⟨some ⟨some version, some network⟩⟩⟩ =
      MainResult.uncaught (PyErr.valueError "No weight matrices found") := by
  have hfind : firstMissing network = none := by
    rw [firstMissing, List.find?_eq_none]
    intro k hk
    have hsome := hall k hk
    rcases Option.isSome_iff_exists.mp hsome with ⟨val, hval⟩
    simp [hval]
  simp [main_run, hfind, pySubscript, hw, infer_architecture]

/-- Witness for C5: a network with all six keys and an empty weights list
produces the uncaught architecture-inference error. -/
theorem main_empty_weights_witness :
    (dictFind sixKeyNet "weights" = some []) ∧
    main_run ⟨some ⟨some ⟨some "2.0-hinge", some sixKeyNet⟩⟩⟩ =
      MainResult.uncaught (PyErr.valueError "No weight matrices found") :=
  ⟨by rfl, main_empty_weights "2.0-hinge" sixKeyNet (by rfl) (by decide)⟩
